import Mathlib

/-!
Verification of the Matrix event model (event identity, signing, conformance,
size check) and the cooperative-scheduler context (notes, wait, interrupt,
timed wait) of the charybdis/construct sources, as a shallow embedding.

The event-model functions are embedded from `ircd::m` (event_id, event::hash,
event::sign, event::signatures, event::conforms, check_size); the scheduler
functions from `ircd::ctx` (ctx::note, ctx::wait, ctx::jump, interrupt,
interruption_point, this_ctx::wait, continuation).
-/

namespace Construct

/-- The `m::event` top-level schema, one field per member of the event tuple.
Strings default to empty (the tuple's undefined/empty value); `content` holds
raw JSON member text keyed by member name; `signatures` maps server name to
an object of key_id to signature text; `prev_events`, `prev_state` and
`auth_events` hold the referenced event ids (element 0 of each entry). -/
structure Event where
  event_id : String := ""
  room_id : String := ""
  sender : String := ""
  type : String := ""
  origin : String := ""
  origin_server_ts : Int := 0
  depth : Int := 0
  state_key : String := ""
  membership : String := ""
  redacts : String := ""
  content : List (String × String) := []
  hashes : List (String × String) := []
  signatures : List (String × List (String × String)) := []
  prev_events : List String := []
  prev_state : List String := []
  auth_events : List String := []
  deriving Repr, DecidableEq

/-- `ircd::unquote`: strip one surrounding pair of double quotes if present. -/
def unquoteJ (s : String) : String :=
  let l := s.toList
  if 2 ≤ l.length ∧ l.head? = some '\"' ∧ l.getLast? = some '\"' then
    String.mk (l.drop 1).dropLast
  else s

/-- `json::iov`/`json::object` member lookup: value of the first member with
the given key, if any. -/
def iov_at (l : List (String × String)) (k : String) : Option String :=
  (l.find? (fun p => p.1 == k)).map (fun p => p.2)

/-- Modelled from the spec: Matrix identifier grammar (spec section 3 and 4.4).
An id is a sigil character `!` `@` `#` `$`, a nonempty localpart, then `:` and
a nonempty host. The `m::id` validator itself is not among the sources; only
its callers are. -/
def m_valid (sigil : Char) (s : String) : Bool :=
  match s.toList with
  | [] => false
  | c :: rest =>
    c == sigil
      && !(rest.takeWhile (fun x => !(x == ':'))).isEmpty
      && !((rest.dropWhile (fun x => !(x == ':'))).drop 1).isEmpty

/-- Modelled from the spec: the host part of a Matrix id is everything after
the first `:` (spec section 3). -/
def id_host (s : String) : String :=
  String.mk ((s.toList.dropWhile (fun x => !(x == ':'))).drop 1)

/-- Duplicate detection over a reference list: true iff two entries at
distinct positions are equal, as the double loop in `event::conforms` tests. -/
def hasDup : List String → Bool
  | [] => false
  | x :: xs => xs.contains x || hasDup xs

/-- `all_of<std::islower>` over a string: every character lowercase
(vacuously true for the empty string). -/
def all_lower (s : String) : Bool :=
  s.toList.all (fun ch => ch.isLower)

/-- The signature object attached under the event's own origin:
`json::object{signatures.get(origin)}` in the conformance check. -/
def sig_of_origin (e : Event) : List (String × String) :=
  (((e.signatures.find? (fun p => p.1 == e.origin)).map (fun p => p.2)).getD [])

/-- `unquote(content.get("membership"))` from the conformance check. -/
def content_membership (e : Event) : String :=
  unquoteJ ((iov_at e.content "membership").getD "")

/-! Conformance report codes, numbered in the order of
`event_conforms_reflects`. -/

def INVALID_OR_MISSING_EVENT_ID : Nat := 0
def INVALID_OR_MISSING_ROOM_ID : Nat := 1
def INVALID_OR_MISSING_SENDER_ID : Nat := 2
def MISSING_TYPE : Nat := 3
def MISSING_ORIGIN : Nat := 4
def INVALID_ORIGIN : Nat := 5
def INVALID_OR_MISSING_REDACTS_ID : Nat := 6
def MISSING_MEMBERSHIP : Nat := 7
def INVALID_MEMBERSHIP : Nat := 8
def MISSING_CONTENT_MEMBERSHIP : Nat := 9
def INVALID_CONTENT_MEMBERSHIP : Nat := 10
def MISSING_PREV_EVENTS : Nat := 11
def MISSING_PREV_STATE : Nat := 12
def DEPTH_NEGATIVE : Nat := 13
def DEPTH_ZERO : Nat := 14
def MISSING_SIGNATURES : Nat := 15
def MISSING_ORIGIN_SIGNATURE : Nat := 16
def MISMATCH_ORIGIN_SENDER : Nat := 17
def MISMATCH_ORIGIN_EVENT_ID : Nat := 18
def SELF_REDACTS : Nat := 19
def SELF_PREV_EVENT : Nat := 20
def SELF_PREV_STATE : Nat := 21
def DUP_PREV_EVENT : Nat := 22
def DUP_PREV_STATE : Nat := 23

/-- Accumulate a report word from guarded codes: each `set(code)` in the
source does `report |= (1UL << code)` when its guard holds. -/
def codes_or : List (Bool × Nat) → Nat
  | [] => 0
  | (true, k) :: t => (1 <<< k) ||| codes_or t
  | (false, _) :: t => codes_or t

/-- The guarded codes of `event::conforms::conforms(const event &)`, one entry
per `set(...)` site, in source order, each with exactly the source's guard.
`INVALID_ORIGIN` is guarded by `if(false)` in the source. -/
def code_list (e : Event) : List (Bool × Nat) :=
  [ (!(m_valid '$' e.event_id), INVALID_OR_MISSING_EVENT_ID),
    (!(m_valid '!' e.room_id), INVALID_OR_MISSING_ROOM_ID),
    (!(m_valid '@' e.sender), INVALID_OR_MISSING_SENDER_ID),
    (decide (e.type = ""), MISSING_TYPE),
    (decide (e.origin = ""), MISSING_ORIGIN),
    (false, INVALID_ORIGIN),
    (decide (e.signatures = []), MISSING_SIGNATURES),
    (decide (sig_of_origin e = []), MISSING_ORIGIN_SIGNATURE),
    (m_valid '@' e.sender && decide (e.origin ≠ id_host e.sender),
      MISMATCH_ORIGIN_SENDER),
    (m_valid '$' e.event_id && decide (e.origin ≠ id_host e.event_id),
      MISMATCH_ORIGIN_EVENT_ID),
    (decide (e.type = "m.room.redaction") && !(m_valid '$' e.redacts),
      INVALID_OR_MISSING_REDACTS_ID),
    (decide (e.redacts ≠ "") && decide (e.redacts = e.event_id), SELF_REDACTS),
    (decide (e.type = "m.room.member") && decide (e.membership = ""),
      MISSING_MEMBERSHIP),
    (decide (e.type = "m.room.member") && !(all_lower e.membership),
      INVALID_MEMBERSHIP),
    (decide (e.type = "m.room.member") && decide (content_membership e = ""),
      MISSING_CONTENT_MEMBERSHIP),
    (decide (e.type = "m.room.member") && !(all_lower (content_membership e)),
      INVALID_CONTENT_MEMBERSHIP),
    (decide (e.type ≠ "m.room.create") && decide (e.prev_events = []),
      MISSING_PREV_EVENTS),
    (decide (e.type ≠ "m.room.create") && decide (e.state_key ≠ "")
      && decide (e.prev_state = []), MISSING_PREV_STATE),
    (decide (e.depth < 0), DEPTH_NEGATIVE),
    (decide (e.type ≠ "m.room.create") && decide (e.depth = 0), DEPTH_ZERO),
    (e.prev_events.any (fun p => p == e.event_id), SELF_PREV_EVENT),
    (hasDup e.prev_events, DUP_PREV_EVENT),
    (e.prev_state.any (fun p => p == e.event_id), SELF_PREV_STATE),
    (hasDup e.prev_state, DUP_PREV_STATE) ]

/-- The conformance report bitset of `event::conforms`. -/
def conforms (e : Event) : Nat :=
  codes_or (code_list e)

/-- `event::conforms::has(code)`: bit test on the report. -/
def conforms_has (e : Event) (k : Nat) : Bool :=
  (conforms e).testBit k

/-- `event::conforms::clean()`: the report is zero. -/
def conforms_clean (e : Event) : Bool :=
  conforms e == 0

/-! Canonical serialization, hashing, id minting, signing. -/

/-- Surround a string with JSON double quotes. -/
def quoteJ (s : String) : String := "\"" ++ s ++ "\""

/-- Render a JSON object whose member values are already raw JSON text. -/
def renderObjRaw (l : List (String × String)) : String :=
  "\x7b" ++ String.intercalate ","
    (l.map (fun p => quoteJ p.1 ++ ":" ++ p.2)) ++ "\x7d"

/-- Render a JSON object whose member values are plain strings. -/
def renderObjStr (l : List (String × String)) : String :=
  renderObjRaw (l.map (fun p => (p.1, quoteJ p.2)))

/-- Render a list of ids as a JSON array of strings. -/
def renderStrArr (l : List String) : String :=
  "[" ++ String.intercalate "," (l.map quoteJ) ++ "]"

/-- Render the signatures object: server to key_id to signature. -/
def renderSigs (l : List (String × List (String × String))) : String :=
  renderObjRaw (l.map (fun p => (p.1, renderObjStr p.2)))

/-- Modelled from the spec: canonical JSON of the event tuple (spec section
4.4): keys sorted lexicographically, no insignificant whitespace; undefined
(empty) members are skipped, the integers `depth` and `origin_server_ts` are
always present. The `json::stringify` body itself is library code outside the
sources; `event::hash` and `event::sign` call it on the whole tuple. -/
def stringify (e : Event) : String :=
  renderObjRaw
    ((if e.auth_events.isEmpty then []
      else [("auth_events", renderStrArr e.auth_events)]) ++
     (if e.content.isEmpty then []
      else [("content", renderObjRaw e.content)]) ++
     [("depth", toString e.depth)] ++
     (if e.event_id = "" then [] else [("event_id", quoteJ e.event_id)]) ++
     (if e.hashes.isEmpty then [] else [("hashes", renderObjStr e.hashes)]) ++
     (if e.membership = "" then []
      else [("membership", quoteJ e.membership)]) ++
     (if e.origin = "" then [] else [("origin", quoteJ e.origin)]) ++
     [("origin_server_ts", toString e.origin_server_ts)] ++
     (if e.prev_events.isEmpty then []
      else [("prev_events", renderStrArr e.prev_events)]) ++
     (if e.prev_state.isEmpty then []
      else [("prev_state", renderStrArr e.prev_state)]) ++
     (if e.redacts = "" then [] else [("redacts", quoteJ e.redacts)]) ++
     (if e.room_id = "" then [] else [("room_id", quoteJ e.room_id)]) ++
     (if e.sender = "" then [] else [("sender", quoteJ e.sender)]) ++
     (if e.signatures.isEmpty then []
      else [("signatures", renderSigs e.signatures)]) ++
     (if e.state_key = "" then [] else [("state_key", quoteJ e.state_key)]) ++
     (if e.type = "" then [] else [("type", quoteJ e.type)]))

/-- `event::hash(const m::event &)`: sha256 over `stringify(event)`, the
event exactly as it stands; the hash primitive is abstracted as a parameter
(transitive encoding/crypto libraries are out of scope per spec section 1). -/
def event_hash (sha256 : String → String) (e : Event) : String :=
  sha256 (stringify e)

/-- Modelled from the spec: the `id::event` constructor from localpart and
host produces sigil `$`, the localpart, `:`, the host (spec section 4.4);
the `m::id` constructors are not among the sources. -/
def mk_event_id (localpart host : String) : String :=
  "$" ++ localpart ++ ":" ++ host

/-- `ircd::m::event_id(event, buf)`: b58-encodes `event::hash(event)` and
forms an event id whose host part is `my_host()`, the local server name. -/
def event_id_mint (sha256 b58 : String → String) (my_host : String)
    (e : Event) : String :=
  mk_event_id (b58 (event_hash sha256 e)) my_host

/-- The type-specific content allowlist per the source's
`event::sign(json::iov &, const json::iov &)` branches, keyed by `type`;
each kept member is read with `contents.at(...)`, which fails when absent. -/
def sign_content (t : String) (contents : List (String × String)) :
    Option (List (String × String)) :=
  if t = "m.room.aliases" then
    (iov_at contents "aliases").map (fun v => [("aliases", v)])
  else if t = "m.room.create" then
    (iov_at contents "creator").map (fun v => [("creator", v)])
  else if t = "m.room.history_visibility" then
    (iov_at contents "history_visibility").map
      (fun v => [("history_visibility", v)])
  else if t = "m.room.join_rules" then
    (iov_at contents "join_rule").map (fun v => [("join_rule", v)])
  else if t = "m.room.member" then
    (iov_at contents "membership").map (fun v => [("membership", v)])
  else if t = "m.room.power_levels" then
    (iov_at contents "ban").bind (fun b =>
    (iov_at contents "events").bind (fun ev =>
    (iov_at contents "events_default").bind (fun ed =>
    (iov_at contents "kick").bind (fun k =>
    (iov_at contents "redact").bind (fun r =>
    (iov_at contents "state_default").bind (fun sd =>
    (iov_at contents "users").bind (fun u =>
    (iov_at contents "users_default").map (fun ud =>
      [("ban", b), ("events", ev), ("events_default", ed), ("kick", k),
       ("redact", r), ("state_default", sd), ("users", u),
       ("users_default", ud)]))))))))
  else
    some []

/-- `event::sign(const m::event &)`: ed25519 signature over
`stringify(event)`; the signing primitive (curried over the secret key) is
abstracted as a parameter. -/
def event_sign_raw (ed_sign : String → String) (e : Event) : String :=
  ed_sign (stringify e)

/-- `event::sign(json::iov &, const json::iov &)`: replace the event's
content by the type-specific allowlist and sign the result; `event.at("type")`
fails when the type is absent, and a missing allowlisted content member
fails as well. -/
def event_sign (ed_sign : String → String) (e : Event)
    (contents : List (String × String)) : Option String :=
  if e.type = "" then none
  else (sign_content e.type contents).map
    (fun cf => event_sign_raw ed_sign { e with content := cf })

/-- `event::signatures(...)`: record the signature as
`signatures[my_host()][self::public_key_id] = b64encode_unpadded(sig)`. -/
def event_signatures (ed_sign b64u : String → String)
    (my_host key_id : String) (e : Event)
    (contents : List (String × String)) :
    Option (List (String × List (String × String))) :=
  (event_sign ed_sign e contents).map
    (fun sig => [(my_host, [(key_id, b64u sig)])])

/-- The spec's type-specific content allowlist, written from the claim's own
enumeration: membership for m.room.member, creator for m.room.create, the
numeric power tables for m.room.power_levels, join_rule for m.room.join_rules,
history_visibility for m.room.history_visibility, aliases for m.room.aliases,
nothing for every other type. -/
def spec_content_allowlist (t : String) : List String :=
  if t = "m.room.aliases" then ["aliases"]
  else if t = "m.room.create" then ["creator"]
  else if t = "m.room.history_visibility" then ["history_visibility"]
  else if t = "m.room.join_rules" then ["join_rule"]
  else if t = "m.room.member" then ["membership"]
  else if t = "m.room.power_levels" then
    ["ban", "events", "events_default", "kick", "redact", "state_default",
     "users", "users_default"]
  else []

/-- Modelled from the spec: redaction keeps the fixed top-level allowlist
(all schema fields except `redacts`-style extras) and reduces `content` to
the type-specific allowlist (spec section 4.4); the redaction routine itself
is not among the sources. -/
def redact (e : Event) : Event :=
  { e with
    redacts := ""
    content := e.content.filter
      (fun p => (spec_content_allowlist e.type).contains p.1) }

/-- The spec's event-id formula (spec section 4.4): sigil, b58 of the sha256
of the canonical JSON of the redacted event, colon, the event's origin. -/
def spec_event_id (sha256 b58 : String → String) (e : Event) : String :=
  "$" ++ b58 (sha256 (stringify (redact e))) ++ ":" ++ e.origin

/-- Modelled from the spec: a stand-in for the external sha256 primitive
(out of scope per spec section 1), used only to instantiate parametric
statements at concrete points. -/
def sha256_model (s : String) : String :=
  "sha" ++ toString s.length

/-- Modelled from the spec: a stand-in for the external b58 encoder
(out of scope per spec section 1), used only to instantiate parametric
statements at concrete points. -/
def b58_model (s : String) : String :=
  "b58" ++ s

/-! Event size check. -/

/-- The error class thrown by `check_size`. -/
inductive MError where
  | BAD_JSON
  deriving Repr, DecidableEq

/-- The `m.event.max_size` conf item default. -/
def event_max_size : Nat := 65507

/-- `ircd::m::check_size(const event &)`: fail with BAD_JSON when the
serialized size exceeds `event_max_size`; the serializer is a parameter
(`serialized` is library code outside the sources). The event itself is
taken by value and never altered. -/
def check_size (serialized : Event → Nat) (e : Event) : Except MError Unit :=
  if event_max_size < serialized e then Except.error MError.BAD_JSON
  else Except.ok ()

/-- `ircd::m::check_size(std::nothrow_t, const event &)`: true iff the
serialized size is within `event_max_size`. -/
def check_size_nt (serialized : Event → Nat) (e : Event) : Bool :=
  decide (serialized e ≤ event_max_size)

/-! The cooperative-scheduler context (`ircd::ctx::ctx`), reduced to the
state the claims are about: the note counter, the running/suspended phase
of the task, and the INTERRUPTED flag. -/

/-- One task's context state. -/
structure CtxState where
  notes : Int
  running : Bool
  interrupted : Bool := false
  deriving Repr, DecidableEq

/-- The state a context starts in: `ctx::operator()` sets `notes = 1` on
entry and the task body runs. -/
def ctx_init : CtxState :=
  { notes := 1, running := true }

/-- `ctx::note()`: `if(notes++ > 0) return false; wake(); return true;` —
increment the counter and report whether a wake was issued (the increment
started from a non-positive counter). -/
def ctx_note (c : CtxState) : CtxState × Bool :=
  ({ c with notes := c.notes + 1 }, decide (c.notes ≤ 0))

/-- `ctx::wait()` as seen by the calling task across its own suspension:
`if(--notes > 0) return false;` — otherwise the task suspends on its alarm
and, on resume, the continuation destructor has set `notes = 1`; the flag
reports whether the task actually yielded. -/
def ctx_wait (c : CtxState) : CtxState × Bool :=
  if 0 < c.notes - 1 then ({ c with notes := c.notes - 1 }, false)
  else ({ c with notes := 1 }, true)

/-- The head of `ctx::jump()`: `current->notes = 0;` unconditionally before
transferring off this context (which then sits suspended). -/
def ctx_jump_clear (c : CtxState) : CtxState :=
  { c with notes := 0, running := false }

/-- `ircd::ctx::interrupt(ctx &)`: set the INTERRUPTED flag and post a wake;
the second component records that a wake was posted. -/
def ctx_interrupt (c : CtxState) : CtxState × Bool :=
  ({ c with interrupted := true }, true)

/-- `ctx::interruption_point(std::nothrow_t)`: when the INTERRUPTED flag is
set, clear it and report true; otherwise report false with no effect. -/
def interruption_point_nt (c : CtxState) : CtxState × Bool :=
  if c.interrupted then ({ c with interrupted := false }, true)
  else (c, false)

/-- `ctx::interruption_point()`: raise `interrupted` exactly when the
nothrow check reports true; otherwise return with the state untouched. -/
def interruption_point_ex (c : CtxState) : Except Unit CtxState :=
  if (interruption_point_nt c).2 then Except.error ()
  else Except.ok (interruption_point_nt c).1

/-- One scheduler transition of a single task's context. While the task runs
no other task executes (single OS thread), so foreign increments (`note`)
happen only while it is off-CPU; every wakeup passes through the continuation
destructor, which sets `notes = 1`. -/
inductive CtxStep : CtxState → CtxState → Prop where
  | resume (c : CtxState) (h : c.running = false) :
      CtxStep c { c with running := true, notes := 1 }
  | note (c : CtxState) (h : c.running = false) :
      CtxStep c { c with notes := c.notes + 1 }
  | wait_suspend (c : CtxState) (h : c.running = true)
      (hn : c.notes - 1 ≤ 0) :
      CtxStep c { c with running := false, notes := c.notes - 1 }
  | wait_nosuspend (c : CtxState) (h : c.running = true)
      (hn : 0 < c.notes - 1) :
      CtxStep c { c with notes := c.notes - 1 }
  | jump (c : CtxState) (h : c.running = true) :
      CtxStep c (ctx_jump_clear c)
  | plain_suspend (c : CtxState) (h : c.running = true) :
      CtxStep c { c with running := false }

/-- The context states reachable from the fresh context. -/
inductive CtxReach : CtxState → Prop where
  | init : CtxReach ctx_init
  | step {c c' : CtxState} : CtxReach c → CtxStep c c' → CtxReach c'

/-! The timed wait (`this_ctx::wait(duration, nothrow)`), modelled over an
abstract wakeup: the alarm expiry is set `d` from now, the task waits, and
the remaining time on the alarm is returned. -/

/-- Why a suspended timed wait returned. -/
inductive WakeReason where
  | timer
  | notified
  | interrupt_wake
  deriving Repr, DecidableEq

/-- The environment's wakeup for one timed wait: at what offset from the
start of the wait the task resumed, and why. -/
structure TimedWake where
  time : Int
  reason : WakeReason
  deriving Repr, DecidableEq

/-- A wakeup consistent with the alarm semantics: the wait ends by the timer
exactly when the deadline has passed without an earlier note or interrupt. -/
def well_timed (d : Int) (w : TimedWake) : Prop :=
  (w.reason = WakeReason.timer ↔ d ≤ w.time)

/-- `this_ctx::wait(duration, nothrow)`: set the alarm `d` from now and call
`ctx::wait()`; a pending note prevents any wait, leaving the alarm expiry
unchanged; otherwise the task resumes at `w.time` and the alarm's remaining
duration `d - w.time` is returned along with whether the timer itself fired. -/
def wait_for (d : Int) (notePending : Bool) (w : TimedWake) : Int × Bool :=
  if notePending then (d, false)
  else (d - w.time, decide (w.reason = WakeReason.timer))

/-! Concrete events used to instantiate the theorems. -/

/-- A fully conformant event except that its `auth_events` repeats an id. -/
def cexDupAuth : Event :=
  { event_id := "$x:h", room_id := "!r:h", sender := "@a:h",
    type := "m.text", origin := "h", depth := 1,
    signatures := [("h", [("ed25519:0", "sig")])],
    prev_events := ["$p:h"], auth_events := ["$c:h", "$c:h"] }

/-- An event whose `prev_events` and `prev_state` both repeat an id. -/
def exDupPrev : Event :=
  { event_id := "$x:h", room_id := "!r:h", sender := "@a:h",
    type := "m.text", origin := "h", depth := 1,
    signatures := [("h", [("ed25519:0", "sig")])],
    prev_events := ["$p:h", "$p:h"], prev_state := ["$s:h", "$s:h"] }

/-- A well-formed event except for `depth = -1` and an absent type. -/
def exDepthNeg : Event :=
  { event_id := "$x:h", room_id := "!r:h", sender := "@a:h",
    type := "", origin := "h", depth := -1,
    signatures := [("h", [("ed25519:0", "sig")])],
    prev_events := ["$p:h"] }

/-- An event with a sender and event id from a different host than origin. -/
def exMismatch : Event :=
  { event_id := "$x:h2", room_id := "!r:h", sender := "@a:h2",
    type := "m.text", origin := "h1", depth := 1,
    prev_events := ["$p:h"] }

/-- An event whose origin is a remote host, for the event-id claims. -/
def c1ev1 : Event :=
  { room_id := "!r:other.host", sender := "@a:other.host",
    origin := "other.host", type := "m.room.message", depth := 1 }

/-- A local event whose content is dropped entirely by redaction. -/
def c1ev2 : Event :=
  { room_id := "!r:my.host", sender := "@a:my.host",
    origin := "my.host", type := "m.room.message", depth := 1,
    content := [("body", "\"hi\"")] }

/-- A member event to instantiate the signing claim. -/
def c2ev : Event :=
  { room_id := "!r:h", sender := "@a:h", origin := "h",
    type := "m.room.member", state_key := "@a:h",
    content := [("displayname", "\"a\"")] }

/-- The content iov supplied alongside `c2ev` when signing. -/
def c2contents : List (String × String) :=
  [("membership", "\"join\"")]

/-- The signature produced for `c2ev` under the identity signing stand-in. -/
def c2sig : String :=
  (event_sign (fun s => s) c2ev c2contents).getD ""

/-! Helper lemmas shared by the claim theorems. -/

lemma one_shift_testBit (j k : Nat) : (1 <<< j).testBit k = decide (j = k) := by
  rw [Nat.shiftLeft_eq, one_mul, Nat.testBit_two_pow]

lemma testBit_codes_or (l : List (Bool × Nat)) (k : Nat) :
    (codes_or l).testBit k = l.any (fun p => p.1 && decide (p.2 = k)) := by
  induction l with
  | nil => simp [codes_or]
  | cons p t ih =>
    obtain ⟨b, j⟩ := p
    cases b
    · simpa [codes_or] using ih
    · simp only [codes_or, Nat.testBit_or, one_shift_testBit, List.any_cons,
        Bool.true_and, ih]

/-- Reachable contexts keep a note counter that is nonnegative and is
exactly 1 while the task occupies the thread. -/
lemma ctx_reach_inv {c : CtxState} (h : CtxReach c) :
    (c.running = true → c.notes = 1) ∧ 0 ≤ c.notes := by
  induction h with
  | init => exact ⟨fun _ => rfl, by decide⟩
  | step _ hs ih =>
    obtain ⟨ih1, ih2⟩ := ih
    cases hs with
    | resume h => exact ⟨fun _ => rfl, by norm_num⟩
    | note h =>
      refine ⟨fun hrun => absurd hrun (by simp [h]), ?_⟩
      show 0 ≤ _ + 1
      omega
    | wait_suspend h hn =>
      have h1 := ih1 h
      refine ⟨fun hrun => absurd hrun (by simp), ?_⟩
      show 0 ≤ _ - 1
      omega
    | wait_nosuspend h hn =>
      have h1 := ih1 h
      exact absurd hn (by omega)
    | jump h =>
      exact ⟨fun hrun => absurd hrun (by simp [ctx_jump_clear]),
        by norm_num [ctx_jump_clear]⟩
    | plain_suspend h =>
      have h1 := ih1 h
      exact ⟨fun hrun => absurd hrun (by simp), by simpa using ih2⟩

/-- The content allowlist actually applied by `event::sign` matches the
claimed per-type key list, and each kept value is the caller's. -/
lemma sign_content_spec (t : String) (contents : List (String × String))
    (cf : List (String × String)) (h : sign_content t contents = some cf) :
    cf.map Prod.fst = spec_content_allowlist t
      ∧ ∀ p ∈ cf, iov_at contents p.1 = some p.2 := by
  unfold sign_content at h
  unfold spec_content_allowlist
  by_cases h1 : t = "m.room.aliases"
  · rw [if_pos h1] at h ⊢
    obtain ⟨v, hv, rfl⟩ := Option.map_eq_some'.mp h
    refine ⟨rfl, ?_⟩
    intro p hp
    simp only [List.mem_singleton] at hp
    subst hp
    exact hv
  rw [if_neg h1] at h ⊢
  by_cases h2 : t = "m.room.create"
  · rw [if_pos h2] at h ⊢
    obtain ⟨v, hv, rfl⟩ := Option.map_eq_some'.mp h
    refine ⟨rfl, ?_⟩
    intro p hp
    simp only [List.mem_singleton] at hp
    subst hp
    exact hv
  rw [if_neg h2] at h ⊢
  by_cases h3 : t = "m.room.history_visibility"
  · rw [if_pos h3] at h ⊢
    obtain ⟨v, hv, rfl⟩ := Option.map_eq_some'.mp h
    refine ⟨rfl, ?_⟩
    intro p hp
    simp only [List.mem_singleton] at hp
    subst hp
    exact hv
  rw [if_neg h3] at h ⊢
  by_cases h4 : t = "m.room.join_rules"
  · rw [if_pos h4] at h ⊢
    obtain ⟨v, hv, rfl⟩ := Option.map_eq_some'.mp h
    refine ⟨rfl, ?_⟩
    intro p hp
    simp only [List.mem_singleton] at hp
    subst hp
    exact hv
  rw [if_neg h4] at h ⊢
  by_cases h5 : t = "m.room.member"
  · rw [if_pos h5] at h ⊢
    obtain ⟨v, hv, rfl⟩ := Option.map_eq_some'.mp h
    refine ⟨rfl, ?_⟩
    intro p hp
    simp only [List.mem_singleton] at hp
    subst hp
    exact hv
  rw [if_neg h5] at h ⊢
  by_cases h6 : t = "m.room.power_levels"
  · rw [if_pos h6] at h ⊢
    simp only [Option.bind_eq_some, Option.map_eq_some'] at h
    obtain ⟨b, hb, ev, hev, ed, hed, k, hk, r, hr, sd, hsd, u, hu, ud, hud,
      rfl⟩ := h
    refine ⟨rfl, ?_⟩
    intro p hp
    simp only [List.mem_cons, List.not_mem_nil, or_false] at hp
    rcases hp with rfl | rfl | rfl | rfl | rfl | rfl | rfl | rfl <;>
      assumption
  rw [if_neg h6] at h ⊢
  obtain rfl : cf = [] := by simpa using h.symm
  exact ⟨rfl, by simp⟩

/-! The claims. -/

/-- C1 (amended): the identifier minted by `event_id(e, buf)` equals `$`
followed by the b58 encoding of the sha256 of the canonical JSON of the
event exactly as it stands (without redaction), followed by `:` and the
local server's host `my_host()` — not e's origin host. -/
theorem c1_event_id_mint (sha256 b58 : String → String) (my_host : String)
    (e : Event) :
    event_id_mint sha256 b58 my_host e
      = "$" ++ b58 (sha256 (stringify e)) ++ ":" ++ my_host := rfl

set_option maxRecDepth 100000 in
/-- C1 (counterexample): for an event whose origin is not the local host the
minted id carries the local host rather than the origin, and for an event
whose content is dropped by redaction the hash preimage is the unredacted
serialization, so in both cases the minted id differs from the claim's
`$ b58(sha256(canonical(redact(e)))) : origin` formula. -/
theorem c1_event_id_cex :
    event_id_mint sha256_model b58_model "my.host" c1ev1
        ≠ spec_event_id sha256_model b58_model c1ev1
  ∧ event_id_mint sha256_model b58_model "my.host" c1ev2
        ≠ spec_event_id sha256_model b58_model c1ev2 := by
  decide

/-- C2: a locally produced signature is computed over the event with its
content reduced to the type-specific allowlist (the reduced content's keys
are exactly the claimed per-type list and each kept value is the caller's),
and it is recorded as `signatures[server][key_id] = b64_unpadded(sig)`. -/
theorem c2_sign_allowlist (ed_sign b64u : String → String)
    (my_host key_id : String) (e : Event)
    (contents : List (String × String)) (sig : String)
    (h : event_sign ed_sign e contents = some sig) :
    (∃ cf, sign_content e.type contents = some cf
      ∧ sig = ed_sign (stringify { e with content := cf })
      ∧ cf.map Prod.fst = spec_content_allowlist e.type
      ∧ ∀ p ∈ cf, iov_at contents p.1 = some p.2)
  ∧ event_signatures ed_sign b64u my_host key_id e contents
      = some [(my_host, [(key_id, b64u sig)])] := by
  unfold event_sign at h
  by_cases ht : e.type = ""
  · rw [if_pos ht] at h
    cases h
  rw [if_neg ht] at h
  obtain ⟨cf, hcf, hsig⟩ := Option.map_eq_some'.mp h
  obtain ⟨hkeys, hvals⟩ := sign_content_spec _ _ _ hcf
  refine ⟨⟨cf, hcf, ?_, hkeys, hvals⟩, ?_⟩
  · rw [← hsig]
    rfl
  · simp only [event_signatures, event_sign, if_neg ht, hcf,
      Option.map_some']
    rw [show event_sign_raw ed_sign { e with content := cf } = sig from hsig]

/-- C2 (witness): signing a concrete `m.room.member` event. -/
theorem c2_sign_allowlist_witness :
    event_sign (fun s => s) c2ev c2contents = some c2sig
  ∧ ((∃ cf, sign_content c2ev.type c2contents = some cf
      ∧ c2sig = stringify { c2ev with content := cf }
      ∧ cf.map Prod.fst = spec_content_allowlist c2ev.type
      ∧ ∀ p ∈ cf, iov_at c2contents p.1 = some p.2)
    ∧ event_signatures (fun s => s) (fun s => s) "h" "ed25519:0" c2ev
        c2contents = some [("h", [("ed25519:0", c2sig)])]) :=
  ⟨rfl, c2_sign_allowlist (fun s => s) (fun s => s) "h" "ed25519:0" c2ev
    c2contents c2sig rfl⟩

/-- C3 (amended): a repeated id in `prev_events` or in `prev_state` makes the
conformance report non-clean (`DUP_PREV_EVENT` / `DUP_PREV_STATE`); repeats
in `auth_events` are not checked. -/
theorem c3_dup_refs (e : Event) :
    (hasDup e.prev_events = true → conforms_clean e = false)
  ∧ (hasDup e.prev_state = true → conforms_clean e = false) := by
  constructor <;> intro hd
  · have hbit : (conforms e).testBit DUP_PREV_EVENT = true := by
      rw [conforms, testBit_codes_or]
      simp [code_list, hd, INVALID_OR_MISSING_EVENT_ID,
        INVALID_OR_MISSING_ROOM_ID, INVALID_OR_MISSING_SENDER_ID,
        MISSING_TYPE, MISSING_ORIGIN, INVALID_ORIGIN,
        INVALID_OR_MISSING_REDACTS_ID, MISSING_MEMBERSHIP,
        INVALID_MEMBERSHIP, MISSING_CONTENT_MEMBERSHIP,
        INVALID_CONTENT_MEMBERSHIP, MISSING_PREV_EVENTS, MISSING_PREV_STATE,
        DEPTH_NEGATIVE, DEPTH_ZERO, MISSING_SIGNATURES,
        MISSING_ORIGIN_SIGNATURE, MISMATCH_ORIGIN_SENDER,
        MISMATCH_ORIGIN_EVENT_ID, SELF_REDACTS, SELF_PREV_EVENT,
        SELF_PREV_STATE, DUP_PREV_EVENT, DUP_PREV_STATE]
    have hne : conforms e ≠ 0 := by
      intro h0
      rw [h0] at hbit
      simp at hbit
    rw [conforms_clean, beq_eq_false_iff_ne]
    exact hne
  · have hbit : (conforms e).testBit DUP_PREV_STATE = true := by
      rw [conforms, testBit_codes_or]
      simp [code_list, hd, INVALID_OR_MISSING_EVENT_ID,
        INVALID_OR_MISSING_ROOM_ID, INVALID_OR_MISSING_SENDER_ID,
        MISSING_TYPE, MISSING_ORIGIN, INVALID_ORIGIN,
        INVALID_OR_MISSING_REDACTS_ID, MISSING_MEMBERSHIP,
        INVALID_MEMBERSHIP, MISSING_CONTENT_MEMBERSHIP,
        INVALID_CONTENT_MEMBERSHIP, MISSING_PREV_EVENTS, MISSING_PREV_STATE,
        DEPTH_NEGATIVE, DEPTH_ZERO, MISSING_SIGNATURES,
        MISSING_ORIGIN_SIGNATURE, MISMATCH_ORIGIN_SENDER,
        MISMATCH_ORIGIN_EVENT_ID, SELF_REDACTS, SELF_PREV_EVENT,
        SELF_PREV_STATE, DUP_PREV_EVENT, DUP_PREV_STATE]
    have hne : conforms e ≠ 0 := by
      intro h0
      rw [h0] at hbit
      simp at hbit
    rw [conforms_clean, beq_eq_false_iff_ne]
    exact hne

/-- C3 (counterexample): an otherwise fully conformant event whose
`auth_events` repeats an id has a completely clean report — duplicate auth
references are not rejected. -/
theorem c3_dup_refs_cex :
    hasDup cexDupAuth.auth_events = true
  ∧ conforms_clean cexDupAuth = true := by
  decide

/-- C3 (witness): a concrete event with duplicated `prev_events`. -/
theorem c3_dup_refs_witness :
    hasDup exDupPrev.prev_events = true ∧ conforms_clean exDupPrev = false :=
  ⟨by decide, (c3_dup_refs exDupPrev).1 (by decide)⟩

/-- C4: an event with `depth = -1` and an absent type, whose remaining
fields are well-formed, reports exactly `MISSING_TYPE` and `DEPTH_NEGATIVE`;
the report is a pure function of the event's fields alone (the embedding
takes nothing else), so no database access is involved. -/
theorem c4_depth_negative_missing_type (e : Event)
    (h1 : m_valid '$' e.event_id = true)
    (h2 : m_valid '!' e.room_id = true)
    (h3 : m_valid '@' e.sender = true)
    (h4 : e.type = "")
    (h5 : e.origin ≠ "")
    (h6 : e.signatures ≠ [])
    (h7 : sig_of_origin e ≠ [])
    (h8 : e.origin = id_host e.sender)
    (h9 : e.origin = id_host e.event_id)
    (h10 : e.redacts = "")
    (h11 : e.prev_events ≠ [])
    (h12 : e.state_key = "")
    (h13 : e.depth = -1)
    (h14 : e.prev_events.any (fun p => p == e.event_id) = false)
    (h15 : hasDup e.prev_events = false)
    (h16 : e.prev_state = []) :
    conforms e = (1 <<< MISSING_TYPE) ||| (1 <<< DEPTH_NEGATIVE) := by
  simp [conforms, code_list, codes_or, hasDup, h1, h2, h3, h4, ← h8, ← h9,
    h5, h6, h7, h10, h11, h12, h13, h14, h15, h16]

/-- C4 (witness): a concrete such event. -/
theorem c4_depth_negative_missing_type_witness :
    exDepthNeg.depth = -1 ∧ exDepthNeg.type = ""
  ∧ conforms exDepthNeg = (1 <<< MISSING_TYPE) ||| (1 <<< DEPTH_NEGATIVE) :=
  ⟨rfl, rfl,
    c4_depth_negative_missing_type exDepthNeg (by decide) (by decide)
      (by decide) (by decide) (by decide) (by decide) (by decide) (by decide)
      (by decide) (by decide) (by decide) (by decide) (by decide) (by decide)
      (by decide) (by decide)⟩

/-- C5: with a valid sender id and a valid event id,
`MISMATCH_ORIGIN_SENDER` is reported iff the origin differs from the
sender's host part, and `MISMATCH_ORIGIN_EVENT_ID` iff the origin differs
from the event id's host part. -/
theorem c5_origin_mismatch (e : Event)
    (hs : m_valid '@' e.sender = true)
    (hid : m_valid '$' e.event_id = true) :
    (conforms_has e MISMATCH_ORIGIN_SENDER = true
      ↔ e.origin ≠ id_host e.sender)
  ∧ (conforms_has e MISMATCH_ORIGIN_EVENT_ID = true
      ↔ e.origin ≠ id_host e.event_id) := by
  constructor <;>
  · rw [conforms_has, conforms, testBit_codes_or]
    simp [code_list, hs, hid, INVALID_OR_MISSING_EVENT_ID,
      INVALID_OR_MISSING_ROOM_ID, INVALID_OR_MISSING_SENDER_ID,
      MISSING_TYPE, MISSING_ORIGIN, INVALID_ORIGIN,
      INVALID_OR_MISSING_REDACTS_ID, MISSING_MEMBERSHIP, INVALID_MEMBERSHIP,
      MISSING_CONTENT_MEMBERSHIP, INVALID_CONTENT_MEMBERSHIP,
      MISSING_PREV_EVENTS, MISSING_PREV_STATE, DEPTH_NEGATIVE, DEPTH_ZERO,
      MISSING_SIGNATURES, MISSING_ORIGIN_SIGNATURE, MISMATCH_ORIGIN_SENDER,
      MISMATCH_ORIGIN_EVENT_ID, SELF_REDACTS, SELF_PREV_EVENT,
      SELF_PREV_STATE, DUP_PREV_EVENT, DUP_PREV_STATE]

/-- C5 (witness): a concrete event whose origin matches neither host. -/
theorem c5_origin_mismatch_witness :
    (conforms_has exMismatch MISMATCH_ORIGIN_SENDER = true
      ↔ exMismatch.origin ≠ id_host exMismatch.sender)
  ∧ (conforms_has exMismatch MISMATCH_ORIGIN_EVENT_ID = true
      ↔ exMismatch.origin ≠ id_host exMismatch.event_id) :=
  c5_origin_mismatch exMismatch (by decide) (by decide)

/-- C6: on any reachable context, `note()` increments the counter and
reports a wake exactly when the counter went from 0 to 1, and `wait()`
decrements and returns without suspending exactly when the counter is still
positive after the decrement. -/
theorem c6_note_wait (c : CtxState) (hr : CtxReach c) :
    ((ctx_note c).1.notes = c.notes + 1)
  ∧ ((ctx_note c).2 = true ↔ (c.notes = 0 ∧ (ctx_note c).1.notes = 1))
  ∧ ((ctx_wait c).2 = false ↔ 0 < c.notes - 1)
  ∧ ((ctx_wait c).2 = false → (ctx_wait c).1.notes = c.notes - 1) := by
  obtain ⟨h1, h2⟩ := ctx_reach_inv hr
  refine ⟨rfl, ?_, ?_, ?_⟩
  · simp only [ctx_note, decide_eq_true_eq]
    omega
  · unfold ctx_wait
    by_cases hw : 0 < c.notes - 1
    · simp [hw]
    · simp [hw]
  · intro hflag
    unfold ctx_wait at hflag ⊢
    by_cases hw : 0 < c.notes - 1
    · simp [hw]
    · simp [hw] at hflag

/-- C6 (witness): the fresh context. -/
theorem c6_note_wait_witness :
    ((ctx_note ctx_init).1.notes = ctx_init.notes + 1)
  ∧ ((ctx_note ctx_init).2 = true
      ↔ (ctx_init.notes = 0 ∧ (ctx_note ctx_init).1.notes = 1))
  ∧ ((ctx_wait ctx_init).2 = false ↔ 0 < ctx_init.notes - 1)
  ∧ ((ctx_wait ctx_init).2 = false
      → (ctx_wait ctx_init).1.notes = ctx_init.notes - 1) :=
  c6_note_wait ctx_init CtxReach.init

/-- C7: `interrupt` sets the INTERRUPTED flag and posts a wake; a subsequent
`interruption_point()` raises the interruption, and in general the call
raises iff the flag is set at that point and otherwise returns with the
context untouched. -/
theorem c7_interruption (c : CtxState) :
    ((ctx_interrupt c).1.interrupted = true ∧ (ctx_interrupt c).2 = true)
  ∧ interruption_point_ex ((ctx_interrupt c).1) = Except.error ()
  ∧ (interruption_point_ex c = Except.error () ↔ c.interrupted = true)
  ∧ (c.interrupted = false → interruption_point_ex c = Except.ok c) := by
  refine ⟨⟨rfl, rfl⟩, ?_, ?_, ?_⟩
  · simp [interruption_point_ex, interruption_point_nt, ctx_interrupt]
  · cases hi : c.interrupted <;>
      simp [interruption_point_ex, interruption_point_nt, hi]
  · intro hi
    simp [interruption_point_ex, interruption_point_nt, hi]

/-- C7 (witness): the fresh context, whose flag is clear. -/
theorem c7_interruption_witness :
    ((ctx_interrupt ctx_init).1.interrupted = true
      ∧ (ctx_interrupt ctx_init).2 = true)
  ∧ interruption_point_ex ((ctx_interrupt ctx_init).1) = Except.error ()
  ∧ (interruption_point_ex ctx_init = Except.error ()
      ↔ ctx_init.interrupted = true)
  ∧ (ctx_init.interrupted = false
      → interruption_point_ex ctx_init = Except.ok ctx_init) :=
  c7_interruption ctx_init

/-- C8 (amended): for a positive duration and a wakeup consistent with the
alarm, the nothrow timed wait returns the remaining time to the deadline,
and that remainder is nonpositive exactly when the wait ended by the timer
(timed out, with no notification or interruption before the deadline); for
nonpositive durations a pending note yields a nonpositive remainder without
a timeout, so positivity is necessary. -/
theorem c8_timed_wait (d : Int) (pending : Bool) (w : TimedWake)
    (hd : 0 < d) (hw : well_timed d w) :
    ((wait_for d pending w).1 ≤ 0 ↔ (wait_for d pending w).2 = true)
  ∧ (pending = false → (wait_for d pending w).1 = d - w.time) := by
  cases pending
  · unfold wait_for
    rw [well_timed] at hw
    constructor
    · simp only [if_neg Bool.false_ne_true, decide_eq_true_eq]
      constructor
      · intro hr
        exact hw.mpr (by omega)
      · intro hr
        have := hw.mp hr
        omega
    · intro
      simp
  · have h1 : wait_for d true w = (d, false) := rfl
    rw [h1]
    constructor
    · constructor
      · intro hr
        exfalso
        omega
      · intro hr
        cases hr
    · intro hfalse
      cases hfalse

/-- C8 (counterexample): for the duration 0 with a note already pending, the
wait returns immediately with the unchanged remainder 0, which is
nonpositive although the wait did not end by the timer — so over every
duration the claimed biconditional fails; positivity of the duration is
required. The unused wakeup is still consistent with the alarm. -/
theorem c8_timed_wait_cex :
    well_timed 0 ⟨0, WakeReason.timer⟩
  ∧ ¬(((wait_for 0 true ⟨0, WakeReason.timer⟩).1 ≤ 0)
      ↔ ((wait_for 0 true ⟨0, WakeReason.timer⟩).2 = true)) :=
  ⟨by norm_num [well_timed], by decide⟩

/-- C8 (witness): a 5-unit wait that resumes at 7 by the timer. -/
theorem c8_timed_wait_witness :
    (0 : Int) < 5 ∧ well_timed 5 ⟨7, WakeReason.timer⟩
  ∧ (((wait_for 5 false ⟨7, WakeReason.timer⟩).1 ≤ 0
      ↔ (wait_for 5 false ⟨7, WakeReason.timer⟩).2 = true)
    ∧ (false = false
      → (wait_for 5 false ⟨7, WakeReason.timer⟩).1 = 5 - (7 : Int))) :=
  ⟨by decide, by norm_num [well_timed],
    c8_timed_wait 5 false ⟨7, WakeReason.timer⟩ (by decide)
      (by norm_num [well_timed])⟩

/-- C9: `check_size` fails with BAD_JSON exactly when the serialized size
exceeds `m.event.max_size` (default 65507), the nothrow overload returns
true exactly when the size is within the limit, the two overloads agree,
and both are pure functions of the event (the event is never altered). -/
theorem c9_check_size (serialized : Event → Nat) (e : Event) :
    (check_size serialized e = Except.error MError.BAD_JSON
      ↔ event_max_size < serialized e)
  ∧ (check_size_nt serialized e = true ↔ serialized e ≤ event_max_size)
  ∧ (check_size serialized e = Except.ok ()
      ↔ check_size_nt serialized e = true)
  ∧ event_max_size = 65507 := by
  by_cases h : event_max_size < serialized e <;>
    simp [check_size, check_size_nt, h, event_max_size]

/-- C10: every wakeup re-establishes `notes = 1` (the continuation
destructor), any task on the thread — hence entering any yield — has
`notes ≤ 1`, and the head of `jump()` clears the counter to 0; the
invariant is preserved by every scheduler transition. -/
theorem c10_notes_invariant (c c' : CtxState) (hr : CtxReach c)
    (hs : CtxStep c c') :
    (c'.running = true → c'.notes = 1)
  ∧ (c.running = true → c.notes ≤ 1)
  ∧ (ctx_jump_clear c).notes = 0 := by
  refine ⟨(ctx_reach_inv (CtxReach.step hr hs)).1, fun h => ?_, rfl⟩
  have := (ctx_reach_inv hr).1 h
  omega

/-- C10 (witness): the fresh context jumping away. -/
theorem c10_notes_invariant_witness :
    ((ctx_jump_clear ctx_init).running = true
      → (ctx_jump_clear ctx_init).notes = 1)
  ∧ (ctx_init.running = true → ctx_init.notes ≤ 1)
  ∧ (ctx_jump_clear ctx_init).notes = 0 :=
  c10_notes_invariant ctx_init (ctx_jump_clear ctx_init) CtxReach.init
    (CtxStep.jump ctx_init rfl)

end Construct
